import Mathlib

/-!
Verification of the masked multimodal transformer-fusion repository
(models.py, train.py) against its natural-language specification.

Shallow embedding conventions:
* A feature vector is `Vec := List ℚ`; a per-sample sequence (time × dim)
  is `Mat := List Vec`; a batch is a `List` of samples and every batched
  tensor operation of the source acts sample-wise, so the embedding works
  per sample.
* Floating-point values are modelled by `ℚ`.  The one operation of the
  sources whose float result can be non-finite is `torch.div` with a zero
  denominator (it yields `inf`/`nan`, not an exception); a scalar that may
  be non-finite is modelled as `Option ℚ` with `none` standing for a
  non-finite value, and subsequent layers propagate it monadically.
* `nn.Linear` application raises on an input-width mismatch; this is
  modelled by an `Option` result that is `none` on mismatch.
* Transcendental layers (GELU, Sigmoid, softmax inside attention,
  LayerNorm's variance root) have no exact `ℚ` counterpart; such modules,
  which live in files outside models.py/train.py anyway
  (layers.py, annotated_transformer.py, detr_transformer.py), are carried
  as opaque function-valued fields of the model structures.  The claims
  below concern mask routing, gating, pooling and control flow, which are
  independent of those functions' values.
* Dropout is modelled as the identity (evaluation mode / p = 0).
-/

/-- A feature vector: one timestep's features, or a pooled representation. -/
abbrev Vec : Type := List ℚ

/-- A per-sample sequence: time × feature-dimension. -/
abbrev Mat : Type := List Vec

/-- Elementwise sum of two vectors (tensor `+` on equal shapes). -/
def vadd (x y : Vec) : Vec := List.zipWith (· + ·) x y

/-- Elementwise difference of two vectors. -/
def vsub (x y : Vec) : Vec := List.zipWith (· - ·) x y

/-- Elementwise sum of two sequences (tensor `+` on equal shapes). -/
def madd (x y : Mat) : Mat := List.zipWith vadd x y

/-- Sum of a sequence over the time axis: `x.sum(dim=1)` for one sample.
For the rectangular tensors of the source every row has equal width. -/
def sumRows (x : Mat) : Vec :=
  match x with
  | [] => []
  | r :: rs => rs.foldl vadd r

/-- Dot product of two equally long vectors. -/
def dot (w x : Vec) : ℚ := (List.zipWith (· * ·) w x).sum

/-- An `nn.Linear(in_features, out_features)` layer: weight rows are the
output neurons, each of width `in_features`. -/
structure Linear where
  weight : Mat
  bias : Vec
  in_features : ℕ

/-- Applying a linear layer.  PyTorch raises on an input-width mismatch,
modelled as `none`. -/
def Linear.apply (l : Linear) (x : Vec) : Option Vec :=
  if x.length = l.in_features then
    some (List.zipWith (fun w b => dot w x + b) l.weight l.bias)
  else none

/-- `ShallowNN` (models.py 14-33): fc1 → GELU → dropout → fc2 → act2.
`act1` is `nn.GELU()` and `act2` the configured `act_layer`
(`nn.Sigmoid` by default); both are transcendental and carried
abstractly.  Dropout is the identity here (`drop=0.` for every use in
models.py's fusion heads, and evaluation mode otherwise). -/
structure ShallowNN where
  fc1 : Linear
  act1 : ℚ → ℚ
  fc2 : Linear
  act2 : ℚ → ℚ

/-- `ShallowNN.forward` (models.py 27-33). -/
def ShallowNN.forward (nn : ShallowNN) (x : Vec) : Option Vec :=
  (nn.fc1.apply x).bind fun x1 =>
    (nn.fc2.apply (x1.map nn.act1)).map fun x2 => x2.map nn.act2

/-- `FeatureFusion` (models.py 35-46): the mean-pool fusion model.  Its
only submodule is the `ShallowNN` head. -/
structure FeatureFusion where
  fc : ShallowNN

/-- One sample of `FeatureFusion.forward` (models.py 40-46): sum each
modality and the mask over time, divide both modality sums by the raw
mask sum (`torch.div`, no clamping — a zero mask sum gives a non-finite
result, modelled as `none`), concatenate, apply the head and squeeze. -/
def FeatureFusion.forward1 (M : FeatureFusion) (feature_audio feature_video : Mat)
    (mask : Vec) : Option ℚ :=
  let sa := sumRows feature_audio
  let sv := sumRows feature_video
  let c := mask.sum
  if c = 0 then none
  else (M.fc.forward (sa.map (· / c) ++ sv.map (· / c))).bind List.head?

/-- Batched `FeatureFusion.forward`: the tensor operations of the source
act independently on each sample of the batch. -/
def FeatureFusion.forward (M : FeatureFusion) (feature_audio feature_video : List Mat)
    (mask : List Vec) : List (Option ℚ) :=
  List.zipWith (fun (av : Mat × Mat) m => M.forward1 av.1 av.2 m)
    (List.zipWith Prod.mk feature_audio feature_video) mask

/-- `TransformerFusion` (models.py 48-65): the shallow-attention fusion
model.  The two `FusionBlock`s come from the absent layers.py and are
carried as opaque sequence-to-sequence functions taking the mask; the
head is `ShallowNN(161, hidden_features=128, out_features=1)`. -/
structure TransformerFusion where
  audio : Mat → Vec → Mat
  video : Mat → Vec → Mat
  fc : ShallowNN

/-- `TransformerFusion.__init__` (models.py 49-54): the constructor
ignores `fused_dimension` (its only use is commented out) and fixes the
head's input width at the literal 161. -/
def TransformerFusion.init (video_dimension audio_dimension fused_dimension : ℕ)
    (audioBlock videoBlock : Mat → Vec → Mat)
    (w1 : Mat) (b1 : Vec) (w2 : Mat) (b2 : Vec) (gelu sigmoid : ℚ → ℚ) :
    TransformerFusion :=
  { audio := audioBlock
    video := videoBlock
    fc := { fc1 := { weight := w1, bias := b1, in_features := 161 }
            act1 := gelu
            fc2 := { weight := w2, bias := b2, in_features := 128 }
            act2 := sigmoid } }

/-- One sample of `TransformerFusion.forward` (models.py 56-65): each
modality through its block, then the same unclamped masked-average
pooling as `FeatureFusion`, concatenation and the head. -/
def TransformerFusion.forward1 (M : TransformerFusion)
    (feature_audio feature_video : Mat) (mask : Vec) : Option ℚ :=
  let fa := M.audio feature_audio mask
  let fv := M.video feature_video mask
  let sa := sumRows fa
  let sv := sumRows fv
  let c := mask.sum
  if c = 0 then none
  else (M.fc.forward (sa.map (· / c) ++ sv.map (· / c))).bind List.head?

example : sumRows [[1, 2], [3, 4]] = [4, 6] := by
  norm_num [sumRows, vadd]

example :
    FeatureFusion.forward1
      { fc := { fc1 := { weight := [[1, 1]], bias := [0], in_features := 2 }
                act1 := id
                fc2 := { weight := [[1]], bias := [0], in_features := 1 }
                act2 := id } }
      [[1], [1]] [[2], [0]] [1, 0] = some 4 := by
  norm_num [FeatureFusion.forward1, ShallowNN.forward, Linear.apply, sumRows, vadd, dot]

/-!
The ablation-configurable fusion model (models.py 100-233).

`MultiHeadedAttention`, `PositionwiseFeedForward` and `LayerNorm` come
from the absent annotated_transformer.py and `get_projection` from the
absent layers.py; they contain softmax / variance roots and are carried
as opaque function-valued fields.  The gating, normalization placement,
classification-token plumbing and head application — the subjects of the
claims — are all in models.py and embedded literally.
-/

/-- `AblationModel`'s fields (models.py 115-166).  The three `enable_*`
fields are the Python ints `config_num % 2`, `(config_num // 2) % 2`,
`(config_num // 4) % 2`, used by truthiness.  `norms` is the
`nn.ModuleList` of eight LayerNorms, each carried as an opaque
per-position function `Vec → Vec`.  Attention modules take (query, key,
value, mask); feed-forward modules are per-sequence functions.  Dropout
layers are identities here. -/
structure AblationModel where
  pre_norm : Bool
  project_type_conv1d : Bool
  audio_prj : Mat → Mat
  video_prj : Mat → Mat
  enable_self_attention : ℕ
  enable_cross_attention : ℕ
  enable_fused_attention : ℕ
  cls_token : Vec
  mask_appnd : ℚ
  norms : List (Vec → Vec)
  aself_attn : Mat → Mat → Mat → Vec → Mat
  afeed_forward : Mat → Mat
  vself_attn : Mat → Mat → Mat → Vec → Mat
  vfeed_forward : Mat → Mat
  audio_attn : Mat → Mat → Mat → Vec → Mat
  video_attn : Mat → Mat → Mat → Vec → Mat
  fused_attn : Mat → Mat → Mat → Vec → Mat
  feed_forward : Mat → Mat
  head : Linear

/-- `AblationModel.__init__` (models.py 115-166): derives the gating
bits from `config_num`, sets `mask_appnd = torch.ones(1, 1)` (the value
1) and `head = nn.Linear(fused_dimension*2, 2)`; the submodules'
weights are construction-time randomness, so the submodule functions and
the classification-token initial value are parameters of the embedding. -/
def AblationModel.init (video_dimension audio_dimension fused_dimension config_num : ℕ)
    (project_type : String) (pre_norm : Bool)
    (audioPrj videoPrj : Mat → Mat) (cls : Vec) (normList : List (Vec → Vec))
    (aSelf : Mat → Mat → Mat → Vec → Mat) (aFF : Mat → Mat)
    (vSelf : Mat → Mat → Mat → Vec → Mat) (vFF : Mat → Mat)
    (aCross vCross fAttn : Mat → Mat → Mat → Vec → Mat) (fFF : Mat → Mat)
    (headW : Mat) (headB : Vec) : AblationModel :=
  { pre_norm := pre_norm
    project_type_conv1d := project_type == "conv1d"
    audio_prj := audioPrj
    video_prj := videoPrj
    enable_self_attention := config_num % 2
    enable_cross_attention := (config_num / 2) % 2
    enable_fused_attention := (config_num / 4) % 2
    cls_token := cls
    mask_appnd := 1
    norms := normList
    aself_attn := aSelf
    afeed_forward := aFF
    vself_attn := vSelf
    vfeed_forward := vFF
    audio_attn := aCross
    video_attn := vCross
    fused_attn := fAttn
    feed_forward := fFF
    head := { weight := headW, bias := headB, in_features := fused_dimension * 2 } }

/-- `AblationModel.maybe_normalize` (models.py 169-173): apply
`self.norms[i]` exactly when `self.pre_norm == pre`, else pass through.
The LayerNorm acts per position, so it maps the norm over the rows. -/
def AblationModel.maybe_normalize (M : AblationModel) (i : ℕ) (x : Mat) (pre : Bool) :
    Mat :=
  if M.pre_norm == pre then x.map (M.norms.getD i id) else x

/-- The residual sublayer pattern repeated throughout
`AblationModel.forward` (e.g. models.py 185-188): save the residual,
maybe-pre-normalize, add the sublayer's output to the residual,
maybe-post-normalize.  Dropout around `g` is the identity here. -/
def AblationModel.sublayer (M : AblationModel) (i : ℕ) (g : Mat → Mat) (x : Mat) : Mat :=
  let residual := x
  let x1 := M.maybe_normalize i x true
  let x2 := madd residual (g x1)
  M.maybe_normalize i x2 false

/-- The cross-attention stage (models.py 205-213).  Note the source's
asymmetry: `video_attn` keys/values are the already-updated audio
stream `a2`, not the pre-residual normalized one. -/
def AblationModel.crossStage (M : AblationModel) (a v : Mat) (m : Vec) : Mat × Mat :=
  let residual_a := a
  let residual_v := v
  let a1 := M.maybe_normalize 4 a true
  let v1 := M.maybe_normalize 5 v true
  let a2 := madd residual_a (M.audio_attn a1 v1 v1 m)
  let v2 := madd residual_v (M.video_attn v1 a2 a2 m)
  (M.maybe_normalize 4 a2 false, M.maybe_normalize 5 v2 false)

/-- The front half of `AblationModel.forward` (models.py 175-215):
projection (with the conv1d transposes), the gated per-modality
self-attention stage, the gated cross-attention stage, and the
feature-dimension concatenation `torch.cat((a, v), dim=2)`. -/
def AblationModel.preFusion (M : AblationModel) (a v : Mat) (m : Vec) : Mat :=
  let a := if M.project_type_conv1d then (M.audio_prj a.transpose).transpose
           else M.audio_prj a
  let v := if M.project_type_conv1d then (M.video_prj v.transpose).transpose
           else M.video_prj v
  let av :=
    if M.enable_self_attention ≠ 0 then
      (M.sublayer 1 M.afeed_forward
        (M.sublayer 0 (fun y => M.aself_attn y y y m) a),
       M.sublayer 3 M.vfeed_forward
        (M.sublayer 2 (fun y => M.vself_attn y y y m) v))
    else (a, v)
  let av :=
    if M.enable_cross_attention ≠ 0 then M.crossStage av.1 av.2 m
    else av
  List.zipWith (· ++ ·) av.1 av.2

/-- `AblationModel.forward` for one sample (models.py 175-233): the
front half, then prepend the classification token to the sequence and
`mask_appnd` to the mask (models.py 216-219), the fused self-attention
and feed-forward residual sublayers — run unconditionally, with no test
of `enable_fused_attention` — and the head applied to position 0
(models.py 230-231), with no pooling. -/
def AblationModel.forward (M : AblationModel) (a v : Mat) (m : Vec) : Option Vec :=
  let f := M.preFusion a v m
  let m2 := M.mask_appnd :: m
  let f := M.cls_token :: f
  let f := M.sublayer 6 (fun y => M.fused_attn y y y m2) f
  let f := M.sublayer 7 M.feed_forward f
  M.head.apply (f.headD [])

/-- Modelled from the spec: the forward pass claim C3 prescribes for a
cleared bit 2 — identical to `AblationModel.forward` except that the
final concatenated self-attention sublayer is bypassed entirely. -/
def AblationModel.forwardBypassingFused (M : AblationModel) (a v : Mat) (m : Vec) :
    Option Vec :=
  let f := M.preFusion a v m
  let f := M.cls_token :: f
  let f := M.sublayer 7 M.feed_forward f
  M.head.apply (f.headD [])

/-!
The alternative encoder-stack fusion model (models.py 236-278) and its
masked pooling, plus the training-loop state (train.py) and the SAM
optimizer's perturb/restore contract.
-/

/-- Modelled from the spec: `GAP`, the masked global average pooling
module imported from the absent layers.py (§4.1/§4.6 of the spec):
masked-sum = sum over time of the features at valid positions only;
masked-average = masked-sum divided by the per-sample valid count
clamped to at least 1. -/
def GAP (x : Mat) (m : Vec) : Vec :=
  let s := sumRows (List.zipWith (fun mi row => row.map (mi * ·)) m x)
  let c := max m.sum 1
  s.map (· / c)

/-- The mask inversion of `DetrTransformerFusion.forward`
(models.py 265): `(m == 0).long()` — 1 exactly where the validity mask
entry equals 0. -/
def invertMask (m : Vec) : Vec := m.map (fun x => if x = 0 then 1 else 0)

/-- `DetrTransformerFusion` (models.py 236-262).  The two `minimal`
projections (absent layers.py) and the three `TransformerEncoder`
stacks (absent detr_transformer.py) are opaque; each encoder takes the
sequence and its `src_key_padding_mask`.  The head is
`ShallowNN(fused_dimension*2, fused_dimension, 1)`. -/
structure DetrTransformerFusion where
  audio_prj : Mat → Mat
  video_prj : Mat → Mat
  audio_enc : Mat → Vec → Mat
  video_enc : Mat → Vec → Mat
  fused_enc : Mat → Vec → Mat
  mlp : ShallowNN

/-- One sample of `DetrTransformerFusion.forward` (models.py 264-278):
invert the mask, project, run each modality encoder with the inverted
mask as `src_key_padding_mask`, concatenate along the feature dimension
(`torch.cat(..., dim=2)` on the permuted (time, batch, dim) layout),
run the fused encoder with the same inverted mask, then `GAP` with the
original mask and the head.  The two `permute(1, 0, 2)` calls swap the
batch and time axes only and are identities of this per-sample view. -/
def DetrTransformerFusion.forward1 (M : DetrTransformerFusion) (a v : Mat) (m : Vec) :
    Option ℚ :=
  let mask := invertMask m
  let a1 := M.audio_prj a
  let v1 := M.video_prj v
  let a2 := M.audio_enc a1 mask
  let v2 := M.video_enc v1 mask
  let f := List.zipWith (· ++ ·) a2 v2
  let f2 := M.fused_enc f mask
  let out := GAP f2 m
  (M.mlp.forward out).bind List.head?

/-- One model parameter as the SAM wrapper sees it: its current value
and the gradient attached to it (`None` when the parameter was excluded
from the graph). -/
structure ParamState where
  value : Vec
  grad : Option Vec

/-- The SAM wrapper's state after the ascent: the perturbed parameters
together with the recorded perturbation of each (none for parameters
skipped because their gradient was absent). -/
structure SamState where
  params : List ParamState
  perturbation : List (Option Vec)

/-- Modelled from the spec: the SAM ascent step (`first_step` of the
absent sam.py; spec §4.8): every parameter with a gradient moves by its
gradient times the shared scale (rho over the overall gradient norm —
the norm's root is transcendental, so the already-computed scale is a
parameter here), the applied perturbation is recorded exactly, and
gradient-less parameters are skipped. -/
def SAM.first_step (scale : ℚ) (ps : List ParamState) : SamState :=
  { params := ps.map fun p =>
      match p.grad with
      | none => p
      | some g => { p with value := vadd p.value (g.map (scale * ·)) }
    perturbation := ps.map fun p => p.grad.map fun g => g.map (scale * ·) }

/-- Modelled from the spec: the restoration half of `second_step` (spec
§4.8): undo the recorded perturbation of every perturbed parameter,
before the base optimizer's update; parameters with no recorded
perturbation are untouched. -/
def SAM.restore (s : SamState) : List ParamState :=
  List.zipWith
    (fun p e =>
      match e with
      | none => p
      | some ew => { p with value := vsub p.value ew })
    s.params s.perturbation

/-- The training-orchestration state carried across epochs
(train.py 138-139 and 184-202): the best metric so far, the
improvement-stall counter, the in-memory best model, the persisted
best checkpoint (epoch, metric, parameters) and the persisted current
checkpoint (epoch, parameters).  Parameter snapshots are an arbitrary
type `α`. -/
structure CkptState (α : Type) where
  best_performance : ℚ
  epoch_from_last_improvement : ℕ
  best_model : Option α
  best_ckpt : Option (ℕ × ℚ × α)
  cur_ckpt : Option (ℕ × α)

/-- The initial orchestration state (train.py 138-139):
`best_performance = 0.0`, stall counter 0, and no best model yet
(`best_model` is first assigned inside the loop). -/
def initialCkptState (α : Type) : CkptState α :=
  { best_performance := 0
    epoch_from_last_improvement := 0
    best_model := none
    best_ckpt := none
    cur_ckpt := none }

/-- One epoch's checkpoint decision (train.py 184-202): when
`val_metrics >= best_performance` persist a best checkpoint, update the
best value, snapshot the best model and reset the stall counter;
otherwise increment the stall counter; in both cases persist the
current checkpoint for this epoch. -/
def checkpointStep {α : Type} (s : CkptState α) (epoch : ℕ) (val_metrics : ℚ)
    (params : α) : CkptState α :=
  let s1 :=
    if s.best_performance ≤ val_metrics then
      { s with
        best_performance := val_metrics
        epoch_from_last_improvement := 0
        best_model := some params
        best_ckpt := some (epoch, val_metrics, params) }
    else { s with epoch_from_last_improvement := s.epoch_from_last_improvement + 1 }
  { s1 with cur_ckpt := some (epoch, params) }

/-- The epoch loop's effect on the checkpoint state (train.py 156-202):
epoch `i` contributes its validation metric and the parameters the model
holds at the end of that epoch. -/
def runEpochs {α : Type} (epochs : List (ℚ × α)) : CkptState α :=
  epochs.enum.foldl
    (fun s em => checkpointStep s em.1 em.2.1 em.2.2) (initialCkptState α)

/-!
Theorems.  One theorem per claim, with helper lemmas shared where
useful.
-/

/-- C1.  The claim says the mean-pool fusion and shallow-attention
fusion forward passes divide by a per-sample valid count clamped to at
least 1, so a zero mask row still yields a finite output.  The code
(models.py 41-43 and 59-61) divides by the raw, unclamped mask sum:
evaluating both forward passes on a sample whose mask row sums to zero
shows the division by zero — the result is non-finite (`none`), not
finite. -/
theorem c1_zero_mask_divides_by_zero :
    FeatureFusion.forward1
        { fc := { fc1 := { weight := [[1, 1]], bias := [0], in_features := 2 }
                  act1 := id
                  fc2 := { weight := [[1]], bias := [0], in_features := 1 }
                  act2 := id } }
        [[1], [1]] [[2], [0]] [0, 0] = none ∧
    TransformerFusion.forward1
        (TransformerFusion.init 136 25 128 (fun x _ => x) (fun x _ => x)
          [[1]] [0] [[1]] [0] id id)
        [[1]] [[2]] [0] = none := by
  constructor <;>
    norm_num [FeatureFusion.forward1, TransformerFusion.forward1,
      TransformerFusion.init]

/-- C2.  The claim says two inputs to `FeatureFusion.forward` agreeing
on the mask and on the features at every valid timestep give identical
outputs.  The code (models.py 41) sums the features over all timesteps,
valid or not, before dividing by the valid count: with mask `[1, 0]`
(only timestep 0 valid) and two audio inputs that agree at timestep 0
and differ only at the padded timestep 1, the two forward outputs
differ, so padded positions do influence the logit. -/
theorem c2_padding_influences_output :
    FeatureFusion.forward1
        { fc := { fc1 := { weight := [[1, 1]], bias := [0], in_features := 2 }
                  act1 := id
                  fc2 := { weight := [[1]], bias := [0], in_features := 1 }
                  act2 := id } }
        [[1], [1]] [[2], [0]] [1, 0] ≠
      FeatureFusion.forward1
        { fc := { fc1 := { weight := [[1, 1]], bias := [0], in_features := 2 }
                  act1 := id
                  fc2 := { weight := [[1]], bias := [0], in_features := 1 }
                  act2 := id } }
        [[1], [0]] [[2], [0]] [1, 0] := by
  norm_num [FeatureFusion.forward1, ShallowNN.forward, Linear.apply, sumRows,
    vadd, dot]

/-- C6.  At every epoch's checkpoint decision (train.py 184-202): when
the validation metric is at least the best seen so far, the parameters
are persisted as best, the best value is updated and the stall counter
reset; otherwise the stall counter is incremented and every best field
is unchanged; in both cases the epoch's current checkpoint is
persisted. -/
theorem c6_checkpoint_decision {α : Type} (s : CkptState α) (epoch : ℕ)
    (val_metrics : ℚ) (params : α) :
    checkpointStep s epoch val_metrics params =
      if s.best_performance ≤ val_metrics then
        { best_performance := val_metrics
          epoch_from_last_improvement := 0
          best_model := some params
          best_ckpt := some (epoch, val_metrics, params)
          cur_ckpt := some (epoch, params) }
      else
        { best_performance := s.best_performance
          epoch_from_last_improvement := s.epoch_from_last_improvement + 1
          best_model := s.best_model
          best_ckpt := s.best_ckpt
          cur_ckpt := some (epoch, params) } := by
  by_cases h : s.best_performance ≤ val_metrics <;>
    simp [checkpointStep, h]

/-- C3.  The claim says the three configuration bits independently gate
their stages, bit 2 gating the final concatenated self-attention.  Bits
0 and 1 do gate their stages (models.py 184, 205), but
`enable_fused_attention` is computed (models.py 129) and never read:
the fused self-attention sublayer (models.py 221-224) runs
unconditionally.  Conjunct 1: the constructor's only use of bit 2 is
the `enable_fused_attention` field.  Conjunct 2: that field has no
effect on the forward pass, so clearing or setting bit 2 changes
nothing.  Conjunct 3: with every bit cleared (`config_num = 0`) the
forward pass still differs from the claimed bypass of the fused
self-attention stage on a concrete input. -/
theorem c3_bit2_does_not_gate_fused_attention :
    (∀ (vd ad fd config : ℕ) (pt : String) (pn : Bool)
        (aPrj vPrj : Mat → Mat) (cls : Vec) (nl : List (Vec → Vec))
        (aS : Mat → Mat → Mat → Vec → Mat) (aF : Mat → Mat)
        (vS : Mat → Mat → Mat → Vec → Mat) (vF : Mat → Mat)
        (aC vC fA : Mat → Mat → Mat → Vec → Mat) (fF : Mat → Mat)
        (hW : Mat) (hB : Vec),
        AblationModel.init vd ad fd config pt pn aPrj vPrj cls nl
            aS aF vS vF aC vC fA fF hW hB =
          { AblationModel.init vd ad fd (config % 4) pt pn aPrj vPrj cls nl
              aS aF vS vF aC vC fA fF hW hB with
            enable_fused_attention := config / 4 % 2 }) ∧
    (∀ (M : AblationModel) (k : ℕ) (a v : Mat) (m : Vec),
        AblationModel.forward { M with enable_fused_attention := k } a v m =
          M.forward a v m) ∧
    (AblationModel.forward
        (AblationModel.init 1 1 1 0 "minimal" false id id [0, 0] []
          (fun q _ _ _ => q) id (fun q _ _ _ => q) id
          (fun q _ _ _ => q) (fun q _ _ _ => q)
          (fun _ _ _ _ => [[1, 1], [1, 1]]) id [[1, 0]] [0])
        [[1]] [[1]] [1] ≠
      AblationModel.forwardBypassingFused
        (AblationModel.init 1 1 1 0 "minimal" false id id [0, 0] []
          (fun q _ _ _ => q) id (fun q _ _ _ => q) id
          (fun q _ _ _ => q) (fun q _ _ _ => q)
          (fun _ _ _ _ => [[1, 1], [1, 1]]) id [[1, 0]] [0])
        [[1]] [[1]] [1]) := by
  refine ⟨?_, ?_, ?_⟩
  · intro vd ad fd config pt pn aPrj vPrj cls nl aS aF vS vF aC vC fA fF hW hB
    simp only [AblationModel.init]
    congr 1 <;> omega
  · intro M k a v m
    rfl
  · norm_num [AblationModel.forward, AblationModel.forwardBypassingFused,
      AblationModel.preFusion, AblationModel.sublayer,
      AblationModel.maybe_normalize, AblationModel.init, madd, vadd,
      Linear.apply, dot]

/-- C5.  In `AblationModel.forward` (models.py 215-231), for every
input and configuration: the classification token is prepended to the
concatenated sequence and `mask_appnd` to the mask before the final
stage, the head is applied directly to the final stage's output at the
prepended position 0, with no masked pooling, and the constructor sets
the prepended mask entry to `torch.ones(1, 1)`, i.e. 1 — always valid. -/
theorem c5_cls_token_position_feeds_head :
    (∀ (M : AblationModel) (a v : Mat) (m : Vec),
        M.forward a v m =
          M.head.apply
            ((M.sublayer 7 M.feed_forward
              (M.sublayer 6 (fun y => M.fused_attn y y y (M.mask_appnd :: m))
                (M.cls_token :: M.preFusion a v m))).headD [])) ∧
    (∀ (vd ad fd config : ℕ) (pt : String) (pn : Bool)
        (aPrj vPrj : Mat → Mat) (cls : Vec) (nl : List (Vec → Vec))
        (aS : Mat → Mat → Mat → Vec → Mat) (aF : Mat → Mat)
        (vS : Mat → Mat → Mat → Vec → Mat) (vF : Mat → Mat)
        (aC vC fA : Mat → Mat → Mat → Vec → Mat) (fF : Mat → Mat)
        (hW : Mat) (hB : Vec),
        (AblationModel.init vd ad fd config pt pn aPrj vPrj cls nl
            aS aF vS vF aC vC fA fF hW hB).mask_appnd = 1) :=
  ⟨fun _ _ _ _ => rfl, fun _ _ _ _ _ _ _ _ _ _ _ _ _ _ _ _ _ _ _ _ => rfl⟩

/-- C8.  `AblationModel.maybe_normalize` (models.py 169-173) applies
`norms[i]` exactly when the `pre` argument matches the construction-time
`pre_norm` flag, and every residual sublayer of the forward pass wraps
its computation in the pair `maybe_normalize i · true` before and
`maybe_normalize i · false` after the residual addition, so exactly one
normalization is applied per sublayer: before the sublayer under
pre-norm, after the residual addition under post-norm. -/
theorem c8_exactly_one_normalization :
    (∀ (M : AblationModel) (i : ℕ) (x : Mat),
        M.maybe_normalize i x true =
          (if M.pre_norm then x.map (M.norms.getD i id) else x) ∧
        M.maybe_normalize i x false =
          (if M.pre_norm then x else x.map (M.norms.getD i id))) ∧
    (∀ (M : AblationModel) (i : ℕ) (g : Mat → Mat) (x : Mat),
        M.sublayer i g x =
          if M.pre_norm then madd x (g (x.map (M.norms.getD i id)))
          else (madd x (g x)).map (M.norms.getD i id)) := by
  constructor
  · intro M i x
    cases hp : M.pre_norm <;> simp [AblationModel.maybe_normalize, hp]
  · intro M i g x
    cases hp : M.pre_norm <;>
      simp [AblationModel.sublayer, AblationModel.maybe_normalize, hp]

/-- Undoing an elementwise perturbation of matching length restores the
original vector exactly. -/
theorem vsub_vadd_cancel (x y : Vec) (h : y.length = x.length) :
    vsub (vadd x y) y = x := by
  induction x generalizing y with
  | nil =>
    cases y with
    | nil => rfl
    | cons b ys => simp at h
  | cons a xs ih =>
    cases y with
    | nil => simp at h
    | cons b ys =>
      have hys : ys.length = xs.length := by simpa using h
      show (a + b - b) :: vsub (vadd xs ys) ys = a :: xs
      rw [add_sub_cancel_right, ih ys hys]

/-- C4.  SAM round-trip law: for every parameter state whose gradients
match their parameters in shape, the ascent step followed immediately by
the restoration that `second_step` performs before the base update
reproduces the parameters exactly, and the set of recorded
perturbations (hence of restored parameters) is exactly the set of
parameters that had a gradient and were perturbed. -/
theorem c4_sam_ascent_restore_round_trip (scale : ℚ) (ps : List ParamState)
    (hlen : ∀ p ∈ ps, ∀ g, p.grad = some g → g.length = p.value.length) :
    SAM.restore (SAM.first_step scale ps) = ps ∧
    (SAM.first_step scale ps).perturbation.map Option.isSome =
      ps.map (fun p => p.grad.isSome) := by
  constructor
  · induction ps with
    | nil => rfl
    | cons p rest ih =>
      have hp := hlen p (List.mem_cons_self p rest)
      have hrest : ∀ q ∈ rest, ∀ g, q.grad = some g → g.length = q.value.length :=
        fun q hq => hlen q (List.mem_cons_of_mem p hq)
      have tail := ih hrest
      cases hg : p.grad with
      | none =>
        simpa [SAM.first_step, SAM.restore, hg] using tail
      | some g =>
        have hv : vsub (vadd p.value (g.map (scale * ·))) (g.map (scale * ·)) =
            p.value := vsub_vadd_cancel _ _ (by simpa using hp g hg)
        have hhead : SAM.restore (SAM.first_step scale (p :: rest)) =
            ParamState.mk
                (vsub (vadd p.value (g.map (scale * ·))) (g.map (scale * ·)))
                p.grad ::
              SAM.restore (SAM.first_step scale rest) := by
          simp [SAM.restore, SAM.first_step, hg]
        rw [hhead, hv, tail]
  · simp [SAM.first_step, List.map_map, Function.comp_def]

/-- C4 witness: the round-trip law at a concrete two-parameter state,
one parameter with a gradient and one without. -/
theorem c4_witness :
    (∀ p ∈ [ParamState.mk [1, 2] (some [1, 1]), ParamState.mk [5] none],
        ∀ g, p.grad = some g → g.length = p.value.length) ∧
    (SAM.restore (SAM.first_step 2
        [ParamState.mk [1, 2] (some [1, 1]), ParamState.mk [5] none]) =
      [ParamState.mk [1, 2] (some [1, 1]), ParamState.mk [5] none] ∧
     (SAM.first_step 2
        [ParamState.mk [1, 2] (some [1, 1]), ParamState.mk [5] none]).perturbation.map
          Option.isSome =
      [ParamState.mk [1, 2] (some [1, 1]), ParamState.mk [5] none].map
        (fun p => p.grad.isSome)) :=
  ⟨by
    intro p hp g hg
    simp only [List.mem_cons, List.not_mem_nil, or_false] at hp
    rcases hp with rfl | rfl
    · injection hg with h
      rw [← h]
      rfl
    · exact absurd hg (by simp),
   c4_sam_ascent_restore_round_trip 2
     [ParamState.mk [1, 2] (some [1, 1]), ParamState.mk [5] none]
     (by
       intro p hp g hg
       simp only [List.mem_cons, List.not_mem_nil, or_false] at hp
       rcases hp with rfl | rfl
       · injection hg with h
         rw [← h]
         rfl
       · exact absurd hg (by simp))⟩

/-- Once some epoch has set a best model, later checkpoint decisions
never unset it. -/
theorem ckpt_isSome_mono {α : Type} (xs : List (ℕ × ℚ × α)) (s : CkptState α)
    (h : s.best_model.isSome) :
    ((xs.foldl (fun t em => checkpointStep t em.1 em.2.1 em.2.2) s).best_model).isSome := by
  induction xs generalizing s with
  | nil => exact h
  | cons x rest ih =>
    apply ih
    by_cases hc : s.best_performance ≤ x.2.1 <;> simp [checkpointStep, hc, h]

/-- When every remaining metric is 0 and the running best is at most 0,
every remaining epoch ties, so the decision keeps replacing the best
model and the fold ends with the last epoch's parameters. -/
theorem ckpt_all_zero_keeps_last {α : Type} (xs : List (ℕ × ℚ × α)) (s : CkptState α)
    (hs : s.best_performance ≤ 0) (hm : ∀ x ∈ xs, x.2.1 = 0) :
    ((xs.foldl (fun t em => checkpointStep t em.1 em.2.1 em.2.2) s).best_model) =
      xs.getLast?.elim s.best_model (fun x => some x.2.2) := by
  induction xs generalizing s with
  | nil => rfl
  | cons x rest ih =>
    have hx : x.2.1 = 0 := hm x (List.mem_cons_self x rest)
    have hrest : ∀ y ∈ rest, y.2.1 = 0 := fun y hy => hm y (List.mem_cons_of_mem x hy)
    have hcond : s.best_performance ≤ x.2.1 := by rw [hx]; exact hs
    have hstep :
        checkpointStep s x.1 x.2.1 x.2.2 =
          { best_performance := x.2.1
            epoch_from_last_improvement := 0
            best_model := some x.2.2
            best_ckpt := some (x.1, x.2.1, x.2.2)
            cur_ckpt := some (x.1, x.2.2) } := by
      simp [checkpointStep, hcond]
    rw [List.foldl_cons, hstep,
      ih _ (by simpa using hx.le) hrest]
    cases rest with
    | nil => rfl
    | cons y ys =>
      rw [List.getLast?_cons_cons]
      cases hlast : (y :: ys).getLast? with
      | none => simp [List.getLast?_eq_none_iff] at hlast
      | some z => rfl

/-- C7.  Counterexample to "the best model defaults to the first
epoch's parameters" in a non-improving run: two epochs with metrics
`[0, 0]` (never exceeding the initial best of 0.0) and parameter
snapshots `0` then `1`.  Because the comparison is `>=` and ties favor
the newer model, every epoch replaces the best model, so the run ends
with the last epoch's parameters, not the first epoch's. -/
theorem c7_counterexample :
    (∀ e ∈ [((0 : ℚ), (0 : ℕ)), (0, 1)], e.1 ≤ 0) ∧
    (runEpochs [((0 : ℚ), (0 : ℕ)), (0, 1)]).best_model = some 1 ∧
    (runEpochs [((0 : ℚ), (0 : ℕ)), (0, 1)]).best_model ≠ some 0 := by
  refine ⟨by simp, ?_, ?_⟩ <;>
    norm_num [runEpochs, checkpointStep, initialCkptState, List.enum,
      List.enumFrom]

/-- C7 amended.  For every run with at least one epoch and non-negative
validation metrics, the best model is defined at the end of training —
the first epoch's metric satisfies the `>=` comparison against the
initial best of 0.0 — and when no epoch's metric exceeds the initial
best, the best model ends as the LAST epoch's parameters (every epoch
ties and ties favor the newer model), not the first epoch's. -/
theorem c7_best_model_always_defined {α : Type} (epochs : List (ℚ × α))
    (hne : epochs ≠ []) (hnn : ∀ e ∈ epochs, 0 ≤ e.1) :
    (runEpochs epochs).best_model.isSome ∧
    ((∀ e ∈ epochs, e.1 ≤ 0) →
      (runEpochs epochs).best_model = epochs.getLast?.map (fun e => e.2)) := by
  constructor
  · cases epochs with
    | nil => exact absurd rfl hne
    | cons e rest =>
      have h0 : (0 : ℚ) ≤ e.1 := hnn e (List.mem_cons_self e rest)
      have hrw : runEpochs (e :: rest) =
          (rest.enumFrom 1).foldl (fun t em => checkpointStep t em.1 em.2.1 em.2.2)
            (checkpointStep (initialCkptState α) 0 e.1 e.2) := rfl
      rw [hrw]
      apply ckpt_isSome_mono
      simp [checkpointStep, initialCkptState, h0]
  · intro hle
    have hz : ∀ x ∈ epochs.enum, x.2.1 = 0 := by
      intro x hx
      have hmem : x.2 ∈ epochs := by
        have hm := List.mem_map_of_mem Prod.snd hx
        rwa [List.enum_map_snd] at hm
      exact le_antisymm (hle x.2 hmem) (hnn x.2 hmem)
    have hfold := ckpt_all_zero_keeps_last epochs.enum (initialCkptState α)
      le_rfl hz
    have hrw : runEpochs epochs =
        epochs.enum.foldl (fun t em => checkpointStep t em.1 em.2.1 em.2.2)
          (initialCkptState α) := rfl
    rw [hrw, hfold]
    have hmap : epochs.enum.getLast?.map Prod.snd = epochs.getLast? := by
      rw [← List.getLast?_map, List.enum_map_snd]
    cases hl : epochs.enum.getLast? with
    | none =>
      rw [hl] at hmap
      simp only [Option.map_none'] at hmap
      exact absurd (List.getLast?_eq_none_iff.mp hmap.symm) hne
    | some p =>
      rw [hl] at hmap
      simp only [Option.map_some'] at hmap
      rw [← hmap]
      rfl

/-- C7 witness: the amended statement at a one-epoch run with metric 0. -/
theorem c7_witness :
    ([((0 : ℚ), (0 : ℕ))] ≠ []) ∧ (∀ e ∈ [((0 : ℚ), (0 : ℕ))], 0 ≤ e.1) ∧
    ((runEpochs [((0 : ℚ), (0 : ℕ))]).best_model.isSome ∧
     ((∀ e ∈ [((0 : ℚ), (0 : ℕ))], e.1 ≤ 0) →
       (runEpochs [((0 : ℚ), (0 : ℕ))]).best_model =
         [((0 : ℚ), (0 : ℕ))].getLast?.map (fun e => e.2))) :=
  ⟨by simp, by simp,
   c7_best_model_always_defined [((0 : ℚ), (0 : ℕ))] (by simp) (by simp)⟩

/-- C9.  In `DetrTransformerFusion.forward` (models.py 264-278): the
key-padding mask is the exact inversion of the validity mask — entry `p`
is 1 exactly when the validity entry at `p` is 0 — the inversion
preserves the mask's length, every one of the three encoder stacks
receives that inverted mask, the two modality outputs are concatenated
along the feature dimension before the fused stack, and the final
reduction is `GAP` masked pooling applied with the original,
non-inverted validity mask. -/
theorem c9_detr_mask_inversion_and_pooling :
    (∀ (m : Vec) (p : ℕ), p < m.length →
        (invertMask m).getD p 0 = if m.getD p 0 = 0 then 1 else 0) ∧
    (∀ m : Vec, (invertMask m).length = m.length) ∧
    (∀ (M : DetrTransformerFusion) (a v : Mat) (m : Vec),
        M.forward1 a v m =
          (M.mlp.forward
            (GAP
              (M.fused_enc
                (List.zipWith (· ++ ·)
                  (M.audio_enc (M.audio_prj a) (invertMask m))
                  (M.video_enc (M.video_prj v) (invertMask m)))
                (invertMask m))
              m)).bind List.head?) := by
  refine ⟨?_, ?_, ?_⟩
  · intro m
    induction m with
    | nil => intro p hp; simp at hp
    | cons x xs ih =>
      intro p hp
      cases p with
      | zero => simp [invertMask]
      | succ n =>
        have hn : n < xs.length := by simpa using hp
        simpa [invertMask] using ih n hn
  · intro m; simp [invertMask]
  · intro M a v m; rfl

/-- C9 witness: the pointwise inversion law at mask `[0, 3]`,
position 0. -/
theorem c9_witness :
    0 < ([0, 3] : Vec).length ∧
    (invertMask [0, 3]).getD 0 0 =
      if ([0, 3] : Vec).getD 0 0 = 0 then 1 else 0 :=
  ⟨by simp, c9_detr_mask_inversion_and_pooling.1 [0, 3] 0 (by simp)⟩

/-- C10.  For `TransformerFusion` (models.py 48-65): the
`fused_dimension` constructor argument has no effect (conjunct 1), the
head's input width is the fixed literal 161 (conjunct 2), the forward
pass fails — the head application raises — whenever the two pooled
modality widths do not sum to 161 (conjunct 3, for any model whose head
input width is 161, as constructed), and succeeds when they do sum to
161 and the mask sum is nonzero with well-shaped head weights
(conjunct 4). -/
theorem c10_fused_dimension_unused_width_161 :
    (∀ (vd ad fd fd2 : ℕ) (ab vb : Mat → Vec → Mat) (w1 : Mat) (b1 : Vec)
        (w2 : Mat) (b2 : Vec) (g s : ℚ → ℚ),
        TransformerFusion.init vd ad fd ab vb w1 b1 w2 b2 g s =
          TransformerFusion.init vd ad fd2 ab vb w1 b1 w2 b2 g s) ∧
    (∀ (vd ad fd : ℕ) (ab vb : Mat → Vec → Mat) (w1 : Mat) (b1 : Vec)
        (w2 : Mat) (b2 : Vec) (g s : ℚ → ℚ),
        (TransformerFusion.init vd ad fd ab vb w1 b1 w2 b2 g s).fc.fc1.in_features =
          161) ∧
    (∀ (M : TransformerFusion) (a v : Mat) (m : Vec),
        M.fc.fc1.in_features = 161 →
        (sumRows (M.audio a m)).length + (sumRows (M.video v m)).length ≠ 161 →
        M.forward1 a v m = none) ∧
    (∀ (M : TransformerFusion) (a v : Mat) (m : Vec),
        M.fc.fc1.in_features = 161 →
        M.fc.fc1.weight.length = M.fc.fc2.in_features →
        M.fc.fc1.bias.length = M.fc.fc2.in_features →
        M.fc.fc2.weight ≠ [] → M.fc.fc2.bias ≠ [] →
        m.sum ≠ 0 →
        (sumRows (M.audio a m)).length + (sumRows (M.video v m)).length = 161 →
        (M.forward1 a v m).isSome) := by
  refine ⟨fun _ _ _ _ _ _ _ _ _ _ _ _ => rfl,
          fun _ _ _ _ _ _ _ _ _ _ _ => rfl, ?_, ?_⟩
  · intro M a v m h161 hlen
    by_cases hc : m.sum = 0
    · simp [TransformerFusion.forward1, hc]
    · simp [TransformerFusion.forward1, ShallowNN.forward, Linear.apply,
        hc, h161, hlen]
  · intro M a v m h161 hw1 hb1 hw2 hb2 hc hlen
    have hin :
        ((sumRows (M.audio a m)).map (· / m.sum) ++
          (sumRows (M.video v m)).map (· / m.sum)).length =
          M.fc.fc1.in_features := by
      simpa [h161] using hlen
    have hmid :
        ((List.zipWith
            (fun w b => dot w
              ((sumRows (M.audio a m)).map (· / m.sum) ++
                (sumRows (M.video v m)).map (· / m.sum)) + b)
            M.fc.fc1.weight M.fc.fc1.bias).map M.fc.act1).length =
          M.fc.fc2.in_features := by
      simp [List.length_zipWith, hw1, hb1]
    have hzs : List.zipWith
        (fun w b => dot w
          (((List.zipWith
              (fun w b => dot w
                ((sumRows (M.audio a m)).map (· / m.sum) ++
                  (sumRows (M.video v m)).map (· / m.sum)) + b)
              M.fc.fc1.weight M.fc.fc1.bias).map M.fc.act1)) + b)
        M.fc.fc2.weight M.fc.fc2.bias ≠ [] := by
      rw [Ne, List.zipWith_eq_nil_iff]
      push_neg
      exact ⟨hw2, hb2⟩
    simp only [TransformerFusion.forward1, ShallowNN.forward, Linear.apply,
      if_neg hc, if_pos hin, if_pos hmid, Option.some_bind, Option.map_some]
    obtain ⟨z, zt, hz⟩ := List.exists_cons_of_ne_nil hzs
    rw [hz]
    simp

/-- A concrete `TransformerFusion` for exercising the width theorem:
identity audio block, constant empty-row video block, well-shaped head
weights. -/
def tfWitnessModel : TransformerFusion :=
  TransformerFusion.init 136 25 128 (fun x _ => x) (fun _ _ => [[]])
    (List.replicate 128 []) (List.replicate 128 0) [[1]] [0] id id

/-- C10 witness: the success direction at a concrete model whose pooled
modality widths sum to exactly 161. -/
theorem c10_witness :
    (tfWitnessModel.fc.fc1.in_features = 161 ∧
     tfWitnessModel.fc.fc1.weight.length = tfWitnessModel.fc.fc2.in_features ∧
     tfWitnessModel.fc.fc1.bias.length = tfWitnessModel.fc.fc2.in_features ∧
     tfWitnessModel.fc.fc2.weight ≠ [] ∧
     tfWitnessModel.fc.fc2.bias ≠ [] ∧
     ([1] : Vec).sum ≠ 0 ∧
     (sumRows (tfWitnessModel.audio [List.replicate 161 0] [1])).length +
       (sumRows (tfWitnessModel.video [] [1])).length = 161) ∧
    (tfWitnessModel.forward1 [List.replicate 161 0] [] [1]).isSome :=
  ⟨⟨rfl,
    by simp [tfWitnessModel, TransformerFusion.init],
    by simp [tfWitnessModel, TransformerFusion.init],
    by simp [tfWitnessModel, TransformerFusion.init],
    by simp [tfWitnessModel, TransformerFusion.init],
    by norm_num,
    by simp [tfWitnessModel, TransformerFusion.init, sumRows]⟩,
   c10_fused_dimension_unused_width_161.2.2.2 tfWitnessModel
     [List.replicate 161 0] [] [1] rfl
     (by simp [tfWitnessModel, TransformerFusion.init])
     (by simp [tfWitnessModel, TransformerFusion.init])
     (by simp [tfWitnessModel, TransformerFusion.init])
     (by simp [tfWitnessModel, TransformerFusion.init])
     (by norm_num)
     (by simp [tfWitnessModel, TransformerFusion.init, sumRows])⟩
